import Mathlib

/-!
Verification of the core logic of a YouTube-video-to-text batch pipeline
(src/main.py): a bounded-retry wrapper, syntactic URL validation,
duration-based audio segmentation with deterministic boundaries, and the
staged download / quality-check / segment / transcribe / clean / persist
control flow.

External collaborators (yt_dlp, whisper, the transformers cleanup model,
soundfile I/O) are modelled as oracles: functions from the 0-based attempt
index (and, for transcription, the 0-based segment index) to an `Except`
outcome, where `.error` models the collaborator raising an exception and
`.ok` models a normal return.  Wall-clock pauses (`time.sleep`) are recorded
as data rather than performed.
-/

namespace YT2Text

/-- Outcome of running the retry wrapper on an instrumented operation:
the value the wrapper returns (`none` when every attempt raised), the
number of times the wrapped operation was invoked, and the list of pause
durations slept between consecutive attempts, in order. -/
structure RetryRun (α : Type) where
  result : Option α
  attempts : Nat
  pauses : List Nat
deriving Repr, DecidableEq

/-- The loop body of `retry` (src/main.py lines 19-32).
`retryFrom f wait attempt remaining` runs the source's
`while attempt < max_attempts` loop starting at the given attempt index with
`remaining = max_attempts - attempt` iterations left: it invokes
`f attempt`; a normal return is returned at once; on a raised failure the
attempt counter advances and, if attempts remain, a pause of `wait` seconds
is recorded before retrying, else the wrapper gives up with `none`
(the source's `return None`). -/
def retryFrom {ε α : Type} (f : Nat → Except ε α) (wait : Nat) :
    Nat → Nat → RetryRun α
  | _, 0 => ⟨none, 0, []⟩
  | attempt, remaining + 1 =>
    match f attempt with
    | .ok a => ⟨some a, 1, []⟩
    | .error _ =>
      if remaining = 0 then ⟨none, 1, []⟩
      else
        let rest := retryFrom f wait (attempt + 1) remaining
        ⟨rest.result, rest.attempts + 1, wait :: rest.pauses⟩

/-- Embedding of `retry(func, max_attempts=3, wait_time=5, *args, **kwargs)`
(src/main.py lines 19-32).  The wrapped operation is modelled as a function
from the 0-based attempt index to an `Except` outcome, so one Lean value
describes the behaviour of the operation across all attempts. -/
def retry {ε α : Type} (f : Nat → Except ε α) (maxAttempts waitTime : Nat) :
    RetryRun α :=
  retryFrom f waitTime 0 maxAttempts

/-- The character class `[a-zA-Z0-9_-]` of the source's YouTube-URL regex. -/
def isYTIdChar (c : Char) : Bool :=
  (decide ('a' ≤ c) && decide (c ≤ 'z')) ||
  (decide ('A' ≤ c) && decide (c ≤ 'Z')) ||
  (decide ('0' ≤ c) && decide (c ≤ '9')) ||
  decide (c = '_') || decide (c = '-')

/-- `startsWithLit lit s` holds when the literal `lit` occurs at the start
of `s` (how a regex literal matches at the current position). -/
def startsWithLit (lit s : List Char) : Bool :=
  decide (s.take lit.length = lit)

/-- The three ways the optional group `(https?://)?` can match: empty,
`http://`, or `https://`. -/
def schemeOpts : List (List Char) :=
  [[], ("http://").data, ("https://").data]

/-- The two ways the optional group `(www\.)?` can match. -/
def wwwOpts : List (List Char) :=
  [[], ("www.").data]

/-- The two branches of the alternation
`(youtube\.com/watch\?v=|youtu\.be/)`. -/
def hostOpts : List (List Char) :=
  [("youtube.com/watch?v=").data, ("youtu.be/").data]

/-- The trailing `([a-zA-Z0-9_-]{11})` of the regex: at least 11 characters
remain and the first 11 are all in the id class (`re.match` only anchors at
the start, so anything may follow). -/
def idCheck (r : List Char) : Bool :=
  decide (11 ≤ r.length) && (r.take 11).all isYTIdChar

/-- Embedding of `is_valid_youtube_url` (src/main.py lines 50-55):
`re.match(r"(https?://)?(www\.)?(youtube\.com/watch\?v=|youtu\.be/)([a-zA-Z0-9_-]{11})", url)`
is not `None`.  `re.match` anchors at the start of the string only, so the
regex accepts exactly the strings that begin with some choice of the
optional scheme, the optional `www.`, one of the two host literals, and
11 id-class characters; the disjunction below enumerates those choices. -/
def is_valid_youtube_url (s : List Char) : Bool :=
  schemeOpts.any fun sch =>
    startsWithLit sch s &&
    (wwwOpts.any fun w =>
      startsWithLit w (s.drop sch.length) &&
      (hostOpts.any fun h =>
        startsWithLit h ((s.drop sch.length).drop w.length) &&
        idCheck (((s.drop sch.length).drop w.length).drop h.length)))

/-- The acceptance condition of the source regex, written as a single
decomposition: the string begins with an optional scheme, an optional
`www.`, one of the two host literals, and an 11-character id, with
arbitrary trailing characters. -/
def canonicalPrefixForm (s : List Char) : Prop :=
  ∃ sch w host id tail,
    sch ∈ schemeOpts ∧ w ∈ wwwOpts ∧ host ∈ hostOpts ∧
    id.length = 11 ∧ (∀ c ∈ id, isYTIdChar c = true) ∧
    s = sch ++ w ++ host ++ id ++ tail

/-- Modelled from the spec: "Accepts only strings matching one of the
canonical forms `[scheme://][www.]host/watch?v=<11-char-id>` or
`[scheme://]short-host/<11-char-id>`", read as whole-string shapes exactly
as written (the `www.` option appears only in the first form, and each form
ends with the 11-character id). -/
def specCanonicalForm (s : List Char) : Prop :=
  ∃ sch id,
    sch ∈ schemeOpts ∧ id.length = 11 ∧ (∀ c ∈ id, isYTIdChar c = true) ∧
    ((∃ w, w ∈ wwwOpts ∧ s = sch ++ w ++ ("youtube.com/watch?v=").data ++ id) ∨
     s = sch ++ ("youtu.be/").data ++ id)

/-- `exactIdAfter host r0` holds when `r0` is exactly the literal `host`
followed by exactly 11 id-class characters and nothing else. -/
def exactIdAfter (host r0 : List Char) : Bool :=
  startsWithLit host r0 && decide ((r0.drop host.length).length = 11) &&
  (r0.drop host.length).all isYTIdChar

/-- Bool version of `specCanonicalForm`, for evaluation on concrete
strings. -/
def specCanonicalFormB (s : List Char) : Bool :=
  schemeOpts.any fun sch =>
    startsWithLit sch s &&
    ((wwwOpts.any fun w =>
        startsWithLit w (s.drop sch.length) &&
        exactIdAfter (("youtube.com/watch?v=").data)
          ((s.drop sch.length).drop w.length)) ||
     exactIdAfter (("youtu.be/").data) (s.drop sch.length))

/-- A decoded audio buffer: the ordered sample data returned by
`sf.read` together with its sample rate in Hz. -/
structure AudioAsset (α : Type) where
  samples : List α
  sampleRate : Nat
deriving Repr, DecidableEq

/-- Python slice `data[start:stop]` for `0 ≤ start ≤ stop`: the elements at
indices `start, ..., stop - 1`, clamped to the length of the list. -/
def pySlice {α : Type} (l : List α) (start stop : Nat) : List α :=
  (l.drop start).take (stop - start)

/-- Embedding of `split_long_audio(audio_path, max_duration=600)`
(src/main.py lines 79-95).  `duration = len(data) / sample_rate` is exact
rational division; if `duration > max_duration` the data is cut into
`math.ceil(duration / max_duration)` slices
`data[int(i*max_duration*sample_rate) : int((i+1)*max_duration*sample_rate)]`
(the products are integers, so `int()` is the identity), written out as
files `..._segment_{i+1}.wav` at the same sample rate; otherwise the
original file is returned as the single segment.  The embedding returns the
per-segment audio contents in file order, so the segment at list index `i`
is the one the source names with ordinal `i + 1`. -/
def split_long_audio {α : Type} (a : AudioAsset α) (maxDuration : Nat := 600) :
    List (AudioAsset α) :=
  let duration : ℚ := (a.samples.length : ℚ) / (a.sampleRate : ℚ)
  if (maxDuration : ℚ) < duration then
    let numSegments : Nat := (⌈duration / (maxDuration : ℚ)⌉).toNat
    (List.range numSegments).map fun i =>
      ⟨pySlice a.samples (i * maxDuration * a.sampleRate)
          ((i + 1) * maxDuration * a.sampleRate), a.sampleRate⟩
  else
    [a]

/-- Terminal condition of one run of `process_youtube_video`. -/
inductive Outcome
  | invalidUrl
  | downloadError
  | crashed
  | transcriptionError
  | completed
deriving Repr, DecidableEq

/-- The external collaborators of one pipeline run, as oracles:
`dl n` is what the yt_dlp download call does on its `n`-th invocation;
`transcribeSeg i n` is what the whisper call does on the `n`-th attempt for
the segment at index `i`; `cleaner n p` is what the transformers cleanup
call does on its `n`-th attempt given prompt `p`; `fsWrite path content` is
whether writing a transcript artifact succeeds.  `.error` models the
collaborator raising an exception. -/
structure Oracles where
  dl : Nat → Except String (AudioAsset Int)
  transcribeSeg : Nat → Nat → Except String String
  cleaner : Nat → String → Except String String
  fsWrite : String → String → Except String Unit

/-- Embedding of `download_audio` (src/main.py lines 58-76): it invokes the
yt_dlp collaborator inside its own `try`/`except Exception`, returning the
audio on success and `(None, None)` on any raised failure.  As the
operation handed to `retry` it therefore never raises — the error type is
`Empty`. -/
def download_audio (dl : Nat → Except String (AudioAsset Int))
    (attempt : Nat) : Except Empty (Option (AudioAsset Int)) :=
  .ok (match dl attempt with
       | .ok a => some a
       | .error _ => none)

/-- Embedding of `clean_text` (src/main.py lines 110-119): it invokes the
cleanup collaborator on the prompt `"Fix grammar and punctuation: " + text`
inside its own `try`/`except Exception`, returning the generated text on
success and the unmodified input `text` on any raised failure.  As the
operation handed to `retry` it never raises. -/
def clean_text (cleaner : Nat → String → Except String String)
    (text : String) (attempt : Nat) : Except Empty String :=
  .ok (match cleaner attempt ("Fix grammar and punctuation: " ++ text) with
       | .ok t => t
       | .error _ => text)

/-- Embedding of the transcription loop (src/main.py lines 141-147):
`for segment in audio_segments:` invoke
`retry(transcribe_audio_with_eta, 3, 5, segment)`; on `None` exit at once
with a transcription error, otherwise append `transcript + "\n"` to the
accumulator.  `transcribe_audio_with_eta` has no handler of its own, so the
collaborator's exceptions reach `retry`.  Returns the accumulated
transcript (`none` on failure) and the per-segment invocation counts. -/
def transcribeLoop (tr : Nat → Nat → Except String String) :
    List (AudioAsset Int) → Nat → String → Option String × List Nat
  | [], _, acc => (some acc, [])
  | _ :: rest, idx, acc =>
    let run := retry (tr idx) 3 5
    match run.result with
    | none => (none, [run.attempts])
    | some frag =>
      let r := transcribeLoop tr rest (idx + 1) (acc ++ frag ++ "\n")
      (r.1, run.attempts :: r.2)

/-- Observable record of one run of `process_youtube_video`: the terminal
condition, how often the download operation was invoked and what pauses its
retries slept, whether the quality check ran, how many segments the
splitter produced, the per-segment transcription invocation counts, the
assembled raw and cleaned transcripts, the transcript-artifact writes that
were attempted (path and content, in order) and those that succeeded, and
whether the final total-time report was reached. -/
structure Trace where
  outcome : Outcome
  downloadAttempts : Nat
  downloadPauses : List Nat
  qualityChecked : Bool
  numSegments : Nat
  transcribeAttempts : List Nat
  fullTranscript : Option String
  cleanedText : Option String
  transcriptWrites : List (String × String)
  transcriptWritesOk : List (String × String)
  timeReported : Bool
deriving Repr, DecidableEq

/-- Embedding of `process_youtube_video` (src/main.py lines 122-172):
validate the URL (invalid → immediate return); `retry(download_audio, 3, 5)`
(`None` result → "download error" return; a `None` from exhausted retries
would crash the tuple unpacking, recorded as `.crashed`); quality check
(advisory); `split_long_audio` with the default 600-second window; for each
segment `retry(transcribe_audio_with_eta, 3, 5)` appending
`transcript + "\n"` (`None` → "transcription error" return);
`retry(clean_text, 3, 5)`; then two independently guarded file writes of
`transcript.txt` and `cleaned_transcript.txt` followed by the total-time
report.  The interactive checkpoint prompts always proceed. -/
def process_youtube_video (o : Oracles) (url : String) : Trace :=
  if is_valid_youtube_url url.data then
    let dlRun := retry (download_audio o.dl) 3 5
    match dlRun.result with
    | none =>
      { outcome := .crashed, downloadAttempts := dlRun.attempts,
        downloadPauses := dlRun.pauses, qualityChecked := false,
        numSegments := 0, transcribeAttempts := [], fullTranscript := none,
        cleanedText := none, transcriptWrites := [], transcriptWritesOk := [],
        timeReported := false }
    | some none =>
      { outcome := .downloadError, downloadAttempts := dlRun.attempts,
        downloadPauses := dlRun.pauses, qualityChecked := false,
        numSegments := 0, transcribeAttempts := [], fullTranscript := none,
        cleanedText := none, transcriptWrites := [], transcriptWritesOk := [],
        timeReported := false }
    | some (some audio) =>
      let segs := split_long_audio audio
      match transcribeLoop o.transcribeSeg segs 0 "" with
      | (none, ats) =>
        { outcome := .transcriptionError, downloadAttempts := dlRun.attempts,
          downloadPauses := dlRun.pauses, qualityChecked := true,
          numSegments := segs.length, transcribeAttempts := ats,
          fullTranscript := none, cleanedText := none, transcriptWrites := [],
          transcriptWritesOk := [], timeReported := false }
      | (some full, ats) =>
        let cleanRun := retry (clean_text o.cleaner full) 3 5
        match cleanRun.result with
        | some cleaned =>
          let ok1 : List (String × String) :=
            match o.fsWrite "transcript.txt" full with
            | .ok _ => [("transcript.txt", full)]
            | .error _ => []
          let ok2 : List (String × String) :=
            match o.fsWrite "cleaned_transcript.txt" cleaned with
            | .ok _ => [("cleaned_transcript.txt", cleaned)]
            | .error _ => []
          { outcome := .completed, downloadAttempts := dlRun.attempts,
            downloadPauses := dlRun.pauses, qualityChecked := true,
            numSegments := segs.length, transcribeAttempts := ats,
            fullTranscript := some full, cleanedText := some cleaned,
            transcriptWrites :=
              [("transcript.txt", full), ("cleaned_transcript.txt", cleaned)],
            transcriptWritesOk := ok1 ++ ok2, timeReported := true }
        | none =>
          let ok1 : List (String × String) :=
            match o.fsWrite "transcript.txt" full with
            | .ok _ => [("transcript.txt", full)]
            | .error _ => []
          { outcome := .completed, downloadAttempts := dlRun.attempts,
            downloadPauses := dlRun.pauses, qualityChecked := true,
            numSegments := segs.length, transcribeAttempts := ats,
            fullTranscript := some full, cleanedText := none,
            transcriptWrites := [("transcript.txt", full)],
            transcriptWritesOk := ok1, timeReported := true }
  else
    { outcome := .invalidUrl, downloadAttempts := 0, downloadPauses := [],
      qualityChecked := false, numSegments := 0, transcribeAttempts := [],
      fullTranscript := none, cleanedText := none, transcriptWrites := [],
      transcriptWritesOk := [], timeReported := false }

/-- The value the Python caller receives from `retry` when the wrapped
operation's own return type is nullable: the returned value on success and
`None` after exhausted attempts — so the two origins of `None` collapse
into the same observed value. -/
def retryCallerValue {β : Type} (r : RetryRun (Option β)) : Option β :=
  match r.result with
  | some v => v
  | none => none

/-- The spec's Transcript assembly: the concatenation of the fragments in
order with a newline appended after each fragment. -/
def assembleTranscript : List String → String
  | [] => ""
  | f :: rest => f ++ "\n" ++ assembleTranscript rest

theorem retryFrom_ok {ε α : Type} (f : Nat → Except ε α) (w : Nat) (a : α) :
    ∀ (k s r : Nat), k < r → (∀ i, i < k → ∃ e, f (s + i) = .error e) →
      f (s + k) = .ok a →
      retryFrom f w s r = ⟨some a, k + 1, List.replicate k w⟩ := by
  intro k
  induction k with
  | zero =>
    intro s r hr herr hok
    obtain ⟨r', rfl⟩ : ∃ r', r = r' + 1 := ⟨r - 1, by omega⟩
    simp only [Nat.add_zero] at hok
    simp [retryFrom, hok]
  | succ k ih =>
    intro s r hr herr hok
    obtain ⟨r', rfl⟩ : ∃ r', r = r' + 1 := ⟨r - 1, by omega⟩
    obtain ⟨e0, he0⟩ := herr 0 (Nat.succ_pos k)
    simp only [Nat.add_zero] at he0
    have hr' : r' ≠ 0 := by omega
    have hrec : retryFrom f w (s + 1) r' = ⟨some a, k + 1, List.replicate k w⟩ := by
      apply ih (s + 1) r' (by omega)
      · intro i hi
        obtain ⟨e, he⟩ := herr (i + 1) (by omega)
        exact ⟨e, by rw [show s + 1 + i = s + (i + 1) by omega]; exact he⟩
      · rw [show s + 1 + k = s + (k + 1) by omega]; exact hok
    simp [retryFrom, he0, hr', hrec, List.replicate_succ]

theorem retryFrom_fail {ε α : Type} (f : Nat → Except ε α) (w : Nat) :
    ∀ (r s : Nat), (∀ i, i < r → ∃ e, f (s + i) = .error e) →
      retryFrom f w s r = ⟨none, r, List.replicate (r - 1) w⟩ := by
  intro r
  induction r with
  | zero => intro s _; simp [retryFrom]
  | succ r ih =>
    intro s herr
    obtain ⟨e0, he0⟩ := herr 0 (Nat.succ_pos r)
    simp only [Nat.add_zero] at he0
    by_cases hr : r = 0
    · subst hr; simp [retryFrom, he0]
    · have hrec : retryFrom f w (s + 1) r = ⟨none, r, List.replicate (r - 1) w⟩ := by
        apply ih (s + 1)
        intro i hi
        obtain ⟨e, he⟩ := herr (i + 1) (by omega)
        exact ⟨e, by rw [show s + 1 + i = s + (i + 1) by omega]; exact he⟩
      have hrep : List.replicate r w = w :: List.replicate (r - 1) w := by
        cases r with
        | zero => exact absurd rfl hr
        | succ n => simp [List.replicate_succ]
      simp [retryFrom, he0, hr, hrec, hrep]

/-- Helper: `retry` on an operation that succeeds at the (0-based) attempt
index `k < maxAttempts`, raising on all earlier attempts, returns the value
after `k + 1` invocations with `k` pauses. -/
theorem retry_ok {ε α : Type} (f : Nat → Except ε α) (maxA w k : Nat) (a : α)
    (hk : k < maxA) (herr : ∀ i, i < k → ∃ e, f i = .error e)
    (hok : f k = .ok a) :
    retry f maxA w = ⟨some a, k + 1, List.replicate k w⟩ := by
  apply retryFrom_ok f w a k 0 maxA hk
  · intro i hi; simpa using herr i hi
  · simpa using hok

/-- Helper: `retry` on an operation that raises on every attempt returns
`none` after exactly `maxAttempts` invocations with a pause between each
pair of consecutive attempts and none after the last. -/
theorem retry_fail {ε α : Type} (f : Nat → Except ε α) (maxA w : Nat)
    (herr : ∀ i, i < maxA → ∃ e, f i = .error e) :
    retry f maxA w = ⟨none, maxA, List.replicate (maxA - 1) w⟩ := by
  apply retryFrom_fail f w maxA 0
  intro i hi; simpa using herr i hi

/-- Helper: `retry` on an operation whose first invocation returns normally
makes exactly one invocation and returns that value. -/
theorem retry_first_ok {ε α : Type} (f : Nat → Except ε α) (m w : Nat) (a : α)
    (h : f 0 = .ok a) : retry f (m + 1) w = ⟨some a, 1, []⟩ := by
  simp [retry, retryFrom, h]

theorem startsWithLit_iff (lit s : List Char) :
    startsWithLit lit s = true ↔ ∃ t, s = lit ++ t := by
  unfold startsWithLit
  rw [decide_eq_true_eq]
  constructor
  · intro h
    refine ⟨s.drop lit.length, ?_⟩
    conv_lhs => rw [← List.take_append_drop lit.length s]
    rw [h]
  · rintro ⟨t, rfl⟩
    exact List.take_left lit t

theorem idCheck_iff (r : List Char) :
    idCheck r = true ↔
      ∃ id tail, r = id ++ tail ∧ id.length = 11 ∧
        ∀ c ∈ id, isYTIdChar c = true := by
  unfold idCheck
  rw [Bool.and_eq_true, decide_eq_true_eq, List.all_eq_true]
  constructor
  · rintro ⟨hlen, hall⟩
    refine ⟨r.take 11, r.drop 11, (List.take_append_drop 11 r).symm, ?_, hall⟩
    simp [List.length_take]
    omega
  · rintro ⟨id, tail, rfl, hlen, hall⟩
    constructor
    · simp; omega
    · intro c hc
      apply hall
      rw [← hlen] at hc
      rw [List.take_left] at hc
      exact hc

theorem exactIdAfter_iff (host r0 : List Char) :
    exactIdAfter host r0 = true ↔
      ∃ id, r0 = host ++ id ∧ id.length = 11 ∧
        ∀ c ∈ id, isYTIdChar c = true := by
  unfold exactIdAfter
  rw [Bool.and_eq_true, Bool.and_eq_true]
  constructor
  · rintro ⟨⟨h1, h2⟩, h3⟩
    obtain ⟨t, rfl⟩ := (startsWithLit_iff _ _).1 h1
    rw [List.drop_left] at h2 h3
    rw [decide_eq_true_eq] at h2
    rw [List.all_eq_true] at h3
    exact ⟨t, rfl, h2, h3⟩
  · rintro ⟨id, rfl, hlen, hall⟩
    rw [List.drop_left]
    refine ⟨⟨(startsWithLit_iff _ _).2 ⟨id, rfl⟩, ?_⟩, ?_⟩
    · rw [decide_eq_true_eq]; exact hlen
    · rw [List.all_eq_true]; exact hall

theorem specCanonicalFormB_iff (s : List Char) :
    specCanonicalFormB s = true ↔ specCanonicalForm s := by
  unfold specCanonicalFormB specCanonicalForm
  rw [List.any_eq_true]
  constructor
  · rintro ⟨sch, hsch, h⟩
    rw [Bool.and_eq_true] at h
    obtain ⟨h1, h2⟩ := h
    obtain ⟨t1, rfl⟩ := (startsWithLit_iff _ _).1 h1
    rw [List.drop_left] at h2
    rw [Bool.or_eq_true] at h2
    rcases h2 with h2 | h2
    · rw [List.any_eq_true] at h2
      obtain ⟨w, hw, h3⟩ := h2
      rw [Bool.and_eq_true] at h3
      obtain ⟨h4, h5⟩ := h3
      obtain ⟨t2, rfl⟩ := (startsWithLit_iff _ _).1 h4
      rw [List.drop_left] at h5
      rw [exactIdAfter_iff] at h5
      obtain ⟨id, rfl, hlen, hall⟩ := h5
      exact ⟨sch, id, hsch, hlen, hall,
        .inl ⟨w, hw, by simp [List.append_assoc]⟩⟩
    · rw [exactIdAfter_iff] at h2
      obtain ⟨id, rfl, hlen, hall⟩ := h2
      exact ⟨sch, id, hsch, hlen, hall, .inr (by simp [List.append_assoc])⟩
  · rintro ⟨sch, id, hsch, hlen, hall, hcase⟩
    rcases hcase with ⟨w, hw, rfl⟩ | rfl
    · refine ⟨sch, hsch, ?_⟩
      rw [Bool.and_eq_true]
      simp only [List.append_assoc]
      refine ⟨(startsWithLit_iff _ _).2 ⟨_, rfl⟩, ?_⟩
      rw [List.drop_left, Bool.or_eq_true]
      left
      rw [List.any_eq_true]
      refine ⟨w, hw, ?_⟩
      rw [Bool.and_eq_true]
      refine ⟨(startsWithLit_iff _ _).2 ⟨_, rfl⟩, ?_⟩
      rw [List.drop_left, exactIdAfter_iff]
      exact ⟨id, rfl, hlen, hall⟩
    · refine ⟨sch, hsch, ?_⟩
      rw [Bool.and_eq_true]
      simp only [List.append_assoc]
      refine ⟨(startsWithLit_iff _ _).2 ⟨_, rfl⟩, ?_⟩
      rw [List.drop_left, Bool.or_eq_true]
      right
      rw [exactIdAfter_iff]
      exact ⟨id, rfl, hlen, hall⟩

/-- C7 (amended): `is_valid_youtube_url` returns true exactly for the
strings that BEGIN WITH `[scheme://][www.](youtube.com/watch?v=|youtu.be/)`
followed by an 11-character id drawn from `[A-Za-z0-9_-]`: the optional
`www.` is accepted before either host form and arbitrary trailing
characters are allowed after the id, because `re.match` anchors only at
the start of the string. -/
theorem url_validation_characterization (s : List Char) :
    is_valid_youtube_url s = true ↔ canonicalPrefixForm s := by
  unfold is_valid_youtube_url canonicalPrefixForm
  rw [List.any_eq_true]
  constructor
  · rintro ⟨sch, hsch, h⟩
    rw [Bool.and_eq_true] at h
    obtain ⟨h1, h2⟩ := h
    obtain ⟨t1, rfl⟩ := (startsWithLit_iff _ _).1 h1
    rw [List.drop_left] at h2
    rw [List.any_eq_true] at h2
    obtain ⟨w, hw, h3⟩ := h2
    rw [Bool.and_eq_true] at h3
    obtain ⟨h4, h5⟩ := h3
    obtain ⟨t2, rfl⟩ := (startsWithLit_iff _ _).1 h4
    rw [List.drop_left] at h5
    rw [List.any_eq_true] at h5
    obtain ⟨host, hhost, h6⟩ := h5
    rw [Bool.and_eq_true] at h6
    obtain ⟨h7, h8⟩ := h6
    obtain ⟨t3, rfl⟩ := (startsWithLit_iff _ _).1 h7
    rw [List.drop_left] at h8
    rw [idCheck_iff] at h8
    obtain ⟨id, tail, rfl, hlen, hall⟩ := h8
    exact ⟨sch, w, host, id, tail, hsch, hw, hhost, hlen, hall,
      by simp [List.append_assoc]⟩
  · rintro ⟨sch, w, host, id, tail, hsch, hw, hhost, hlen, hall, rfl⟩
    refine ⟨sch, hsch, ?_⟩
    rw [Bool.and_eq_true]
    simp only [List.append_assoc]
    refine ⟨(startsWithLit_iff _ _).2 ⟨_, rfl⟩, ?_⟩
    rw [List.drop_left, List.any_eq_true]
    refine ⟨w, hw, ?_⟩
    rw [Bool.and_eq_true]
    refine ⟨(startsWithLit_iff _ _).2 ⟨_, rfl⟩, ?_⟩
    rw [List.drop_left, List.any_eq_true]
    refine ⟨host, hhost, ?_⟩
    rw [Bool.and_eq_true]
    refine ⟨(startsWithLit_iff _ _).2 ⟨_, rfl⟩, ?_⟩
    rw [List.drop_left, idCheck_iff]
    exact ⟨id, tail, rfl, hlen, hall⟩

/-- C7 (counterexample): the string `www.youtu.be/dQw4w9WgXcQ?t=1` is
accepted by `is_valid_youtube_url` yet matches neither of the spec's
canonical forms: the short-host form admits no `www.` and both forms end
at the 11-character id, while this string carries a `www.` before
`youtu.be/` and trailing characters after the id. -/
theorem url_validation_counterexample :
    is_valid_youtube_url ("www.youtu.be/dQw4w9WgXcQ?t=1").data = true ∧
    ¬ specCanonicalForm ("www.youtu.be/dQw4w9WgXcQ?t=1").data := by
  constructor
  · decide
  · rw [← specCanonicalFormB_iff]
    decide

theorem join_chunks {α : Type} (l : List α) (c : Nat) :
    ∀ n, ((List.range n).map fun i => (l.drop (i * c)).take c).flatten =
      l.take (n * c) := by
  intro n
  induction n with
  | zero => simp
  | succ n ih =>
    rw [List.range_succ, List.map_append, List.flatten_append, ih]
    simp only [List.map_cons, List.map_nil, List.flatten_cons,
      List.flatten_nil, List.append_nil]
    rw [Nat.succ_mul, List.take_add]

/-- C1: for every audio asset with a positive sample rate and positive
window `W` seconds: if `duration = sample_count / sample_rate` is at most
`W`, `split_long_audio` returns exactly one segment identical to the input;
otherwise it returns exactly `ceil(duration / W)` segments where the
segment at index `i` (ordinal `i + 1`) is the sample range
`[i*W*rate, (i+1)*W*rate)` clamped to the sample count at the original
sample rate, and concatenating the segments' samples in order reconstructs
the original sample sequence exactly — no overlap, no gap. -/
theorem split_reconstructs_samples {α : Type} (a : AudioAsset α) (W : Nat)
    (hsr : 0 < a.sampleRate) (hW : 0 < W) :
    ((a.samples.length : ℚ) / (a.sampleRate : ℚ) ≤ (W : ℚ) →
      split_long_audio a W = [a]) ∧
    ((W : ℚ) < (a.samples.length : ℚ) / (a.sampleRate : ℚ) →
      (split_long_audio a W).length =
        (⌈((a.samples.length : ℚ) / (a.sampleRate : ℚ)) / (W : ℚ)⌉).toNat ∧
      (∀ i, i < (split_long_audio a W).length →
        (split_long_audio a W)[i]? =
          some ⟨pySlice a.samples (i * W * a.sampleRate)
            ((i + 1) * W * a.sampleRate), a.sampleRate⟩) ∧
      ((split_long_audio a W).map AudioAsset.samples).flatten = a.samples) := by
  constructor
  · intro hle
    rw [split_long_audio]
    rw [if_neg (not_lt.2 hle)]
  · intro hgt
    have hsplit : split_long_audio a W =
        (List.range
            ((⌈((a.samples.length : ℚ) / (a.sampleRate : ℚ)) / (W : ℚ)⌉).toNat)).map
          fun i =>
            (⟨pySlice a.samples (i * W * a.sampleRate)
              ((i + 1) * W * a.sampleRate), a.sampleRate⟩ : AudioAsset α) := by
      rw [split_long_audio]
      rw [if_pos hgt]
    set d : ℚ := (a.samples.length : ℚ) / (a.sampleRate : ℚ) with hd
    set n : Nat := (⌈d / (W : ℚ)⌉).toNat with hn
    have hWq : (0 : ℚ) < (W : ℚ) := by exact_mod_cast hW
    have hsrq : (0 : ℚ) < (a.sampleRate : ℚ) := by exact_mod_cast hsr
    have hceil_nonneg : (0 : ℤ) ≤ ⌈d / (W : ℚ)⌉ := by
      have h1 : (0 : ℚ) < d / (W : ℚ) := by
        apply div_pos (lt_trans hWq hgt) hWq
      have := Int.le_ceil (d / (W : ℚ))
      exact_mod_cast le_of_lt (lt_of_lt_of_le h1 this)
    have hnq : ((n : ℕ) : ℚ) = (⌈d / (W : ℚ)⌉ : ℚ) := by
      rw [hn]
      exact_mod_cast Int.toNat_of_nonneg hceil_nonneg
    have hlen_le : a.samples.length ≤ n * (W * a.sampleRate) := by
      have h1 : d / (W : ℚ) ≤ (n : ℚ) := by
        rw [hnq]; exact_mod_cast Int.le_ceil (d / (W : ℚ))
      have h2 : (a.samples.length : ℚ) ≤ (n : ℚ) * ((W : ℚ) * (a.sampleRate : ℚ)) := by
        have h3 : d ≤ (n : ℚ) * (W : ℚ) := by
          calc d = d / (W : ℚ) * (W : ℚ) := (div_mul_cancel₀ d (ne_of_gt hWq)).symm
          _ ≤ (n : ℚ) * (W : ℚ) := by
              apply mul_le_mul_of_nonneg_right h1 (le_of_lt hWq)
        have h4 : (a.samples.length : ℚ) = d * (a.sampleRate : ℚ) := by
          rw [hd, div_mul_cancel₀ _ (ne_of_gt hsrq)]
        rw [h4]
        calc d * (a.sampleRate : ℚ)
            ≤ ((n : ℚ) * (W : ℚ)) * (a.sampleRate : ℚ) :=
              mul_le_mul_of_nonneg_right h3 (le_of_lt hsrq)
        _ = (n : ℚ) * ((W : ℚ) * (a.sampleRate : ℚ)) := by ring
      exact_mod_cast h2
    refine ⟨?_, ?_, ?_⟩
    · rw [hsplit, List.length_map, List.length_range]
    · intro i hi
      rw [hsplit] at hi ⊢
      rw [List.length_map, List.length_range] at hi
      rw [List.getElem?_map, List.getElem?_range hi]
      rfl
    · rw [hsplit, List.map_map]
      have hfun : (AudioAsset.samples ∘ fun i =>
          (⟨pySlice a.samples (i * W * a.sampleRate)
            ((i + 1) * W * a.sampleRate), a.sampleRate⟩ : AudioAsset α)) =
          fun i => (a.samples.drop (i * (W * a.sampleRate))).take
            (W * a.sampleRate) := by
        funext i
        simp only [Function.comp_apply, pySlice]
        have h1 : (i + 1) * W * a.sampleRate - i * W * a.sampleRate =
            W * a.sampleRate := by ring_nf; omega
        have h2 : i * W * a.sampleRate = i * (W * a.sampleRate) := by ring
        rw [h1, h2]
      rw [hfun, join_chunks]
      exact List.take_of_length_le hlen_le

/-- Witness for C1: a 7-sample asset at 2 Hz split with a 1-second window
(duration 3.5 s) yields 4 segments whose concatenation is the original
sample sequence. -/
theorem split_reconstructs_samples_witness :
    ((split_long_audio (⟨[(1:Int), 2, 3, 4, 5, 6, 7], 2⟩ : AudioAsset Int) 1).map
        AudioAsset.samples).flatten = [(1:Int), 2, 3, 4, 5, 6, 7] ∧
    (split_long_audio (⟨[(1:Int), 2, 3, 4, 5, 6, 7], 2⟩ : AudioAsset Int) 1).length = 4 := by
  have h := (split_reconstructs_samples
      (⟨[(1:Int), 2, 3, 4, 5, 6, 7], 2⟩ : AudioAsset Int) 1
      (by norm_num) (by norm_num)).2 (by norm_num)
  refine ⟨h.2.2, ?_⟩
  rw [h.1]
  have hceil : (⌈((((7:ℕ) : ℚ)) / ((2:ℕ) : ℚ)) / ((1:ℕ) : ℚ)⌉ : ℤ) = 4 := by
    rw [Int.ceil_eq_iff]
    constructor
    · norm_num
    · norm_num
  norm_num at hceil ⊢
  rw [hceil]
  rfl

/-- C3: for every wrapped operation, if it raises on its first `k`
invocations and returns normally on attempt index `k < maxAttempts`, `retry`
invokes it exactly `k + 1` times, pauses `waitTime` before each of the `k`
retries, and returns the successful result; if it raises on every
invocation, `retry` invokes it exactly `maxAttempts` times with a
`waitTime` pause between consecutive attempts (none after the last) and
returns a failure (`none`). -/
theorem retry_attempt_count {ε α : Type} (f : Nat → Except ε α)
    (maxA w : Nat) :
    (∀ k a, k < maxA → (∀ i, i < k → ∃ e, f i = .error e) → f k = .ok a →
      retry f maxA w = ⟨some a, k + 1, List.replicate k w⟩) ∧
    ((∀ i, i < maxA → ∃ e, f i = .error e) →
      retry f maxA w = ⟨none, maxA, List.replicate (maxA - 1) w⟩) :=
  ⟨fun k a hk herr hok => retry_ok f maxA w k a hk herr hok,
   fun herr => retry_fail f maxA w herr⟩

/-- Witness for C3: an operation failing twice then succeeding is invoked
3 times with two 5-second pauses; an operation that always fails is
invoked exactly 3 times with two 5-second pauses and yields `none`. -/
theorem retry_attempt_count_witness :
    retry (fun n => if n < 2 then (.error "boom" : Except String Nat)
        else .ok 42) 3 5 = ⟨some 42, 3, [5, 5]⟩ ∧
    retry (fun _ => (.error "boom" : Except String Nat)) 3 5 =
      ⟨none, 3, [5, 5]⟩ := by
  constructor
  · have h := (retry_attempt_count
        (fun n => if n < 2 then (.error "boom" : Except String Nat)
          else .ok 42) 3 5).1 2 42 (by norm_num)
        (fun i hi => ⟨"boom", by interval_cases i <;> rfl⟩) (by rfl)
    exact h.trans (by rfl)
  · have h := (retry_attempt_count
        (fun _ => (.error "boom" : Except String Nat)) 3 5).2
        (fun i _ => ⟨"boom", rfl⟩)
    exact h.trans (by rfl)

/-- C4: the source's `retry` returns `None` when every attempt raised — it
discards the error object instead of surfacing a `(result, error)` pair:
two operations that fail terminally with different error objects produce
identical results, so the terminal failure cannot reach the caller. -/
theorem retry_discards_error :
    retry (fun _ => (.error "disk full" : Except String Nat)) 3 5 =
      retry (fun _ => (.error "network down" : Except String Nat)) 3 5 ∧
    (retry (fun _ => (.error "disk full" : Except String Nat)) 3 5).result =
      none := by
  decide

/-- C9: when the wrapped operation returns normally at attempt index `k`
after `k` raising invocations, `retry` makes exactly `k + 1` invocations
and returns the value unchanged, whatever it is; and the caller-visible
value of a run whose operation successfully returns `none` equals that of a
run whose operation raised on all 3 attempts — the caller cannot tell them
apart. -/
theorem retry_returns_value_unchanged :
    (∀ (ε α : Type) (f : Nat → Except ε α) (maxA w k : Nat) (a : α),
      k < maxA → (∀ i, i < k → ∃ e, f i = .error e) → f k = .ok a →
      (retry f maxA w).result = some a ∧
      (retry f maxA w).attempts = k + 1) ∧
    retryCallerValue
        (retry (fun _ => (.ok none : Except String (Option Nat))) 3 5) =
      retryCallerValue
        (retry (fun _ => (.error "boom" : Except String (Option Nat))) 3 5) := by
  constructor
  · intro ε α f maxA w k a hk herr hok
    rw [retry_ok f maxA w k a hk herr hok]
    exact ⟨rfl, rfl⟩
  · decide

/-- Witness for C9: an operation that succeeds at once with the value
`some 7` has that value returned unchanged after exactly one invocation. -/
theorem retry_returns_value_unchanged_witness :
    (retry (fun _ => (.ok (some 7) : Except String (Option Nat))) 3 5).result =
      some (some 7) ∧
    (retry (fun _ => (.ok (some 7) : Except String (Option Nat))) 3 5).attempts =
      1 :=
  retry_returns_value_unchanged.1 String (Option Nat) _ 3 5 0 (some 7)
    (by norm_num) (fun i hi => absurd hi (Nat.not_lt_zero i)) rfl

/-- C2: with a download collaborator that raises on every invocation, the
pipeline reports a download error and stops — no quality check, no
segmentation, no transcription, no transcript writes — but the retried
download operation is invoked exactly once with no pauses:
`download_audio` catches the collaborator's exception itself and returns a
`(None, None)` value that `retry` treats as a success, so the configured
3 attempts and 5-second pauses never happen. -/
theorem download_failure_single_attempt :
    process_youtube_video
      ⟨fun _ => .error "network down", fun _ _ => .ok "text",
        fun _ _ => .ok "cleaned", fun _ _ => .ok ()⟩
      "https://www.youtube.com/watch?v=dQw4w9WgXcQ" =
    { outcome := .downloadError, downloadAttempts := 1, downloadPauses := [],
      qualityChecked := false, numSegments := 0, transcribeAttempts := [],
      fullTranscript := none, cleanedText := none, transcriptWrites := [],
      transcriptWritesOk := [], timeReported := false } := by
  decide

theorem transcribeLoop_fail (tr : Nat → Nat → Except String String) :
    ∀ (segs : List (AudioAsset Int)) (idx : Nat) (acc : String),
      (∃ i, i < segs.length ∧ ∀ a, a < 3 → ∃ e, tr (idx + i) a = .error e) →
      (transcribeLoop tr segs idx acc).1 = none := by
  intro segs
  induction segs with
  | nil =>
    rintro idx acc ⟨i, hi, _⟩
    exact absurd hi (by simp)
  | cons s rest ih =>
    rintro idx acc ⟨i, hi, hfail⟩
    cases i with
    | zero =>
      have hrun : retry (tr idx) 3 5 = ⟨none, 3, List.replicate 2 5⟩ :=
        retry_fail _ 3 5 (fun a ha => by simpa using hfail a ha)
      simp [transcribeLoop, hrun]
    | succ k =>
      rcases hres : (retry (tr idx) 3 5).result with _ | frag
      · simp [transcribeLoop, hres]
      · have hrec := ih (idx + 1) (acc ++ frag ++ "\n")
          ⟨k, by simpa using hi,
           fun a ha => by
             rw [show idx + 1 + k = idx + (k + 1) by omega]
             exact hfail a ha⟩
        simp [transcribeLoop, hres, hrec]

theorem transcribeLoop_ok (tr : Nat → Nat → Except String String)
    (frag : Nat → String) (k : Nat → Nat) :
    ∀ (segs : List (AudioAsset Int)) (idx : Nat) (acc : String),
      (∀ i, i < segs.length →
        k (idx + i) < 3 ∧
        (∀ a, a < k (idx + i) → ∃ e, tr (idx + i) a = .error e) ∧
        tr (idx + i) (k (idx + i)) = .ok (frag (idx + i))) →
      transcribeLoop tr segs idx acc =
        (some (acc ++ assembleTranscript
            ((List.range segs.length).map fun i => frag (idx + i))),
         (List.range segs.length).map fun i => k (idx + i) + 1) := by
  intro segs
  induction segs with
  | nil =>
    intro idx acc _
    simp [transcribeLoop, assembleTranscript, String.append_empty]
  | cons s rest ih =>
    intro idx acc h
    have h0 := h 0 (by simp)
    simp only [Nat.add_zero] at h0
    have hrun : retry (tr idx) 3 5 =
        ⟨some (frag idx), k idx + 1, List.replicate (k idx) 5⟩ :=
      retry_ok _ 3 5 (k idx) (frag idx) h0.1 h0.2.1 h0.2.2
    have hrec := ih (idx + 1) (acc ++ frag idx ++ "\n")
      (fun i hi => by
        have := h (i + 1) (by simpa using hi)
        rw [show idx + (i + 1) = idx + 1 + i by omega] at this
        exact this)
    simp only [transcribeLoop, hrun, hrec]
    rw [List.length_cons, List.range_succ_eq_map]
    simp only [List.map_cons, List.map_map, Function.comp_def, Nat.add_zero,
      Prod.mk.injEq, Option.some.injEq]
    have hfrag : (fun x => frag (idx + Nat.succ x)) = fun x => frag (idx + 1 + x) := by
      funext x
      rw [show idx + Nat.succ x = idx + 1 + x by omega]
    have hk : (fun x => k (idx + Nat.succ x) + 1) = fun x => k (idx + 1 + x) + 1 := by
      funext x
      rw [show idx + Nat.succ x = idx + 1 + x by omega]
    rw [hfrag, hk, assembleTranscript]
    constructor
    · rw [String.append_assoc, String.append_assoc, String.append_assoc]
    · rfl

/-- C8: for every sequence of segments whose transcriptions each succeed
at some attempt index `k i < 3` after raising on the earlier attempts, the
transcript the loop assembles is the concatenation of the fragments in
segment-ordinal order with a newline appended after each fragment, and is
independent of how many retries each segment's transcription needed. -/
theorem transcript_assembly_order (tr : Nat → Nat → Except String String)
    (segs : List (AudioAsset Int)) (frag : Nat → String) (k : Nat → Nat)
    (h : ∀ i, i < segs.length →
      k i < 3 ∧ (∀ a, a < k i → ∃ e, tr i a = .error e) ∧
      tr i (k i) = .ok (frag i)) :
    transcribeLoop tr segs 0 "" =
      (some (assembleTranscript ((List.range segs.length).map frag)),
       (List.range segs.length).map fun i => k i + 1) := by
  have hmain := transcribeLoop_ok tr frag k segs 0 ""
    (fun i hi => by simpa using h i hi)
  simpa [String.empty_append] using hmain

/-- Witness for C8: three segments producing fragments `a`, `b`, `c`, each
succeeding on the first attempt, assemble to the transcript `"a\nb\nc\n"`
with one invocation per segment. -/
theorem transcript_assembly_order_witness :
    transcribeLoop
      (fun i _ => if i = 0 then (.ok "a" : Except String String)
        else if i = 1 then .ok "b" else .ok "c")
      [⟨[], 1⟩, ⟨[], 1⟩, ⟨[], 1⟩] 0 "" = (some "a\nb\nc\n", [1, 1, 1]) := by
  have h := transcript_assembly_order
    (fun i _ => if i = 0 then (.ok "a" : Except String String)
      else if i = 1 then .ok "b" else .ok "c")
    [⟨[], 1⟩, ⟨[], 1⟩, ⟨[], 1⟩]
    (fun i => if i = 0 then "a" else if i = 1 then "b" else "c")
    (fun _ => 0)
    (by
      intro i hi
      refine ⟨by norm_num, fun a ha => absurd ha (Nat.not_lt_zero a), ?_⟩
      simp only [List.length_cons, List.length_nil] at hi
      interval_cases i <;> rfl)
  rw [h]
  rfl

/-- C5: if the pipeline reaches transcription (valid URL, download
succeeded) and some segment's transcription raises on all 3 attempts, the
run terminates with a transcription error and persists nothing: no
transcript write is even attempted, no raw or cleaned transcript value
exists — fragments from earlier segments are discarded — and the final
total-time report is never reached. -/
theorem transcription_failure_persists_nothing (o : Oracles) (url : String)
    (audio : AudioAsset Int)
    (hurl : is_valid_youtube_url url.data = true)
    (hdl : o.dl 0 = .ok audio)
    (hfail : ∃ i, i < (split_long_audio audio).length ∧
      ∀ a, a < 3 → ∃ e, o.transcribeSeg i a = .error e) :
    (process_youtube_video o url).outcome = .transcriptionError ∧
    (process_youtube_video o url).transcriptWrites = [] ∧
    (process_youtube_video o url).transcriptWritesOk = [] ∧
    (process_youtube_video o url).fullTranscript = none ∧
    (process_youtube_video o url).cleanedText = none ∧
    (process_youtube_video o url).timeReported = false := by
  have hdlrun : retry (download_audio o.dl) 3 5 = ⟨some (some audio), 1, []⟩ :=
    retry_first_ok _ 2 5 _ (by simp [download_audio, hdl])
  have hloop1 :
      (transcribeLoop o.transcribeSeg (split_long_audio audio) 0 "").1 = none := by
    apply transcribeLoop_fail
    obtain ⟨i, hi, hf⟩ := hfail
    exact ⟨i, hi, fun a ha => by simpa using hf a ha⟩
  obtain ⟨ats, hpair⟩ :
      ∃ ats, transcribeLoop o.transcribeSeg (split_long_audio audio) 0 "" =
        (none, ats) :=
    ⟨_, by rw [← hloop1]⟩
  simp [process_youtube_video, hurl, hdlrun, hpair]

/-- Witness for C5: empty 1 Hz audio (one segment), transcription raising
on every attempt — the run ends in a transcription error with no writes. -/
theorem transcription_failure_witness :
    (process_youtube_video
      ⟨fun _ => .ok ⟨[], 1⟩, fun _ _ => .error "whisper crashed",
        fun _ _ => .ok "x", fun _ _ => .ok ()⟩
      "https://youtu.be/dQw4w9WgXcQ").outcome = .transcriptionError ∧
    (process_youtube_video
      ⟨fun _ => .ok ⟨[], 1⟩, fun _ _ => .error "whisper crashed",
        fun _ _ => .ok "x", fun _ _ => .ok ()⟩
      "https://youtu.be/dQw4w9WgXcQ").transcriptWrites = [] := by
  have h := transcription_failure_persists_nothing
    ⟨fun _ => .ok ⟨[], 1⟩, fun _ _ => .error "whisper crashed",
      fun _ _ => .ok "x", fun _ _ => .ok ()⟩
    "https://youtu.be/dQw4w9WgXcQ" ⟨[], 1⟩ (by decide) rfl
    ⟨0, by
        have hs : split_long_audio (⟨[], 1⟩ : AudioAsset Int) = [⟨[], 1⟩] := by
          simp only [split_long_audio]
          norm_num
        rw [hs]
        norm_num,
      fun a _ => ⟨"whisper crashed", rfl⟩⟩
  exact ⟨h.1, h.2.1⟩

/-- C6: for every assembled transcript `T`, if the cleanup collaborator
raises on every invocation, the cleaned value falls back to `T` unchanged
(via `clean_text`'s own exception handler), both artifacts are written with
exactly the same content `T`, and the pipeline still completes with the
total-time report. -/
theorem cleanup_failure_falls_back_verbatim (o : Oracles) (url : String)
    (audio : AudioAsset Int) (T : String) (ats : List Nat)
    (hurl : is_valid_youtube_url url.data = true)
    (hdl : o.dl 0 = .ok audio)
    (hT : transcribeLoop o.transcribeSeg (split_long_audio audio) 0 "" =
      (some T, ats))
    (hclean : ∀ n p, ∃ e, o.cleaner n p = .error e)
    (hw : ∀ p c, o.fsWrite p c = .ok ()) :
    (process_youtube_video o url).outcome = .completed ∧
    (process_youtube_video o url).fullTranscript = some T ∧
    (process_youtube_video o url).cleanedText = some T ∧
    (process_youtube_video o url).transcriptWrites =
      [("transcript.txt", T), ("cleaned_transcript.txt", T)] ∧
    (process_youtube_video o url).transcriptWritesOk =
      [("transcript.txt", T), ("cleaned_transcript.txt", T)] ∧
    (process_youtube_video o url).timeReported = true := by
  have hdlrun : retry (download_audio o.dl) 3 5 = ⟨some (some audio), 1, []⟩ :=
    retry_first_ok _ 2 5 _ (by simp [download_audio, hdl])
  have hct : clean_text o.cleaner T 0 = .ok T := by
    obtain ⟨e, he⟩ := hclean 0 ("Fix grammar and punctuation: " ++ T)
    simp [clean_text, he]
  have hcleanrun : retry (clean_text o.cleaner T) 3 5 = ⟨some T, 1, []⟩ :=
    retry_first_ok _ 2 5 T hct
  simp [process_youtube_video, hurl, hdlrun, hT, hcleanrun, hw]

/-- Witness for C6: one segment transcribing to `hello`, cleanup raising on
every attempt, writes succeeding — both artifacts hold `hello\n`. -/
theorem cleanup_failure_witness :
    (process_youtube_video
      ⟨fun _ => .ok ⟨[], 1⟩, fun _ _ => .ok "hello",
        fun _ _ => .error "cleanup down", fun _ _ => .ok ()⟩
      "https://youtu.be/dQw4w9WgXcQ").transcriptWritesOk =
      [("transcript.txt", "hello\n"), ("cleaned_transcript.txt", "hello\n")] ∧
    (process_youtube_video
      ⟨fun _ => .ok ⟨[], 1⟩, fun _ _ => .ok "hello",
        fun _ _ => .error "cleanup down", fun _ _ => .ok ()⟩
      "https://youtu.be/dQw4w9WgXcQ").outcome = .completed := by
  have h := cleanup_failure_falls_back_verbatim
    ⟨fun _ => .ok ⟨[], 1⟩, fun _ _ => .ok "hello",
      fun _ _ => .error "cleanup down", fun _ _ => .ok ()⟩
    "https://youtu.be/dQw4w9WgXcQ" ⟨[], 1⟩ "hello\n" [1] (by decide) rfl
    (by
      have hs : split_long_audio (⟨[], 1⟩ : AudioAsset Int) = [⟨[], 1⟩] := by
        simp only [split_long_audio]
        norm_num
      rw [hs]
      rfl)
    (fun n p => ⟨"cleanup down", rfl⟩) (fun p c => rfl)
  exact ⟨h.2.2.2.2.1, h.1⟩

/-- C10: whenever the pipeline reaches the persisting step (the
transcription loop produced a transcript `T`), `transcript.txt` is
attempted with the full raw `T` regardless of the cleanup and write
outcomes, the `cleaned_transcript.txt` attempt follows with the cleaned
value no matter how either write turns out, and the final total-time
report is reached in every case — the oracles for cleanup and writing are
completely unconstrained here. -/
theorem persisting_writes_are_independent (o : Oracles) (url : String)
    (audio : AudioAsset Int) (T : String) (ats : List Nat)
    (hurl : is_valid_youtube_url url.data = true)
    (hdl : o.dl 0 = .ok audio)
    (hT : transcribeLoop o.transcribeSeg (split_long_audio audio) 0 "" =
      (some T, ats)) :
    (process_youtube_video o url).outcome = .completed ∧
    (process_youtube_video o url).fullTranscript = some T ∧
    (∃ C, (process_youtube_video o url).cleanedText = some C ∧
      (process_youtube_video o url).transcriptWrites =
        [("transcript.txt", T), ("cleaned_transcript.txt", C)]) ∧
    (process_youtube_video o url).timeReported = true := by
  have hdlrun : retry (download_audio o.dl) 3 5 = ⟨some (some audio), 1, []⟩ :=
    retry_first_ok _ 2 5 _ (by simp [download_audio, hdl])
  obtain ⟨v, hv⟩ : ∃ v, clean_text o.cleaner T 0 = .ok v := ⟨_, rfl⟩
  have hcleanrun : retry (clean_text o.cleaner T) 3 5 = ⟨some v, 1, []⟩ :=
    retry_first_ok _ 2 5 v hv
  refine ⟨?_, ?_, ⟨v, ?_, ?_⟩, ?_⟩ <;>
    simp [process_youtube_video, hurl, hdlrun, hT, hcleanrun]

/-- Witness for C10: one segment transcribing to `x`, cleanup raising and
every file write failing — the run still completes and reports the time. -/
theorem persisting_writes_witness :
    (process_youtube_video
      ⟨fun _ => .ok ⟨[], 1⟩, fun _ _ => .ok "x",
        fun _ _ => .error "cleanup down", fun _ _ => .error "disk full"⟩
      "https://youtu.be/dQw4w9WgXcQ").timeReported = true ∧
    (process_youtube_video
      ⟨fun _ => .ok ⟨[], 1⟩, fun _ _ => .ok "x",
        fun _ _ => .error "cleanup down", fun _ _ => .error "disk full"⟩
      "https://youtu.be/dQw4w9WgXcQ").outcome = .completed := by
  have h := persisting_writes_are_independent
    ⟨fun _ => .ok ⟨[], 1⟩, fun _ _ => .ok "x",
      fun _ _ => .error "cleanup down", fun _ _ => .error "disk full"⟩
    "https://youtu.be/dQw4w9WgXcQ" ⟨[], 1⟩ "x\n" [1] (by decide) rfl
    (by
      have hs : split_long_audio (⟨[], 1⟩ : AudioAsset Int) = [⟨[], 1⟩] := by
        simp only [split_long_audio]
        norm_num
      rw [hs]
      rfl)
  exact ⟨h.2.2.2, h.1⟩

end YT2Text
